import Mathlib

/-!
Verification development for the `wng` build tool.

The definitions below are a shallow embedding of the tool's core:
the configuration-notation parser (`src/config.rs`), the project model
builder (`src/project/project.rs`) and the build orchestrator /
build-script hook logic (`src/project/manager.rs`).  Strings are
modelled by Lean `String` (a list of characters); Rust's byte-length
`String::len` is modelled by summing the UTF-8 sizes of the characters,
so the byte-length / char-index distinction of the original code is
preserved.  Fallible code returns `Except`.
-/

/-! ## String helpers (models of the Rust std string operations used) -/

/-- Model of Rust `str::starts_with`: prefix test on the character
sequence. -/
def strStartsWith (s pre : String) : Bool :=
  pre.toList.isPrefixOf s.toList

/-- One step of Rust `str::replace` on character lists: scan left to
right, replacing each (non-overlapping) occurrence of `pat` by `rep`.
The `fuel` argument (instantiated with the list's length, which bounds
the recursion depth) makes the recursion structural.  Rust's behaviour
for an empty pattern is not needed here (all patterns used by the tool
are non-empty); for `pat = []` the scan replaces nothing. -/
def listReplaceAux (pat rep : List Char) : Nat → List Char → List Char
  | _, [] => []
  | 0, l => l
  | fuel + 1, c :: rest =>
    if pat ≠ [] ∧ pat.isPrefixOf (c :: rest) then
      rep ++ listReplaceAux pat rep fuel ((c :: rest).drop pat.length)
    else
      c :: listReplaceAux pat rep fuel rest

/-- Model of Rust `str::replace` (all non-overlapping occurrences,
left to right). -/
def strReplace (s pat rep : String) : String :=
  String.mk (listReplaceAux pat.toList rep.toList s.toList.length s.toList)

/-- Substring test (`needle` occurs contiguously in `hay`), used to
state that an error message names a key. -/
def listContainsSub (needle : List Char) : List Char → Bool
  | [] => needle.isPrefixOf []
  | c :: rest => needle.isPrefixOf (c :: rest) || listContainsSub needle rest

/-- `strContainsSub hay needle`: `needle` occurs in `hay`. -/
def strContainsSub (hay needle : String) : Bool :=
  listContainsSub needle.toList hay.toList

/-- Model of Rust `str::ends_with`: suffix test on the character
sequence. -/
def strEndsWith (s suf : String) : Bool :=
  suf.toList.isSuffixOf s.toList

/-- Byte length of a string, as Rust `String::len` computes it
(the sum of the UTF-8 sizes of its characters). -/
def byteLen (l : List Char) : Nat :=
  (l.map Char.utf8Size).sum

/-! ## `src/config.rs`: the configuration value tree and its parser -/

/-- `ConfigValue` from `src/config.rs`: `Ident`, `Array`, `Pair` and
`None` variants. -/
inductive ConfigValue where
  | ident : String → ConfigValue
  | array : List ConfigValue → ConfigValue
  | pair : String → ConfigValue → ConfigValue
  | none : ConfigValue
deriving Repr

/-- Parser outcomes other than success: `panicked` models a Rust
`unwrap` panic (`self.peek().unwrap()` on `None`); `err` carries the
error message built by the `error!` macro. -/
inductive RErr where
  | panicked : RErr
  | err : String → RErr
deriving Repr, DecidableEq

/-- `ConfigParser::is_at_end`: compares the current *char* index with
the *byte* length of the input (Rust `self.current >= self.input.len()`). -/
def pIsAtEnd (input : List Char) (current : Nat) : Bool :=
  byteLen input ≤ current

/-- `ConfigParser::peek`: `self.input.chars().nth(self.current)`. -/
def pPeek (input : List Char) (current : Nat) : Option Char :=
  input.get? current

/-- The terminating characters of `ConfigParser::parse_ident`. -/
def identTerminating (c : Char) : Bool :=
  c = '\n' || c = '\r' || c = ' ' || c = '\t' || c = ')'

/-- `ConfigParser::parse_ident`: consume characters until end of input
or a terminating character; returns the consumed characters and the new
cursor.  A `peek().unwrap()` on `None` is the `panicked` outcome. -/
def parseIdent (input : List Char) : Nat → Nat → Except RErr (List Char × Nat)
  | 0, _ => .error .panicked
  | fuel + 1, current =>
    if pIsAtEnd input current then
      .ok ([], current)
    else
      match pPeek input current with
      | Option.none => .error .panicked
      | Option.some c =>
        if identTerminating c then
          .ok ([], current)
        else
          match parseIdent input fuel (current + 1) with
          | .ok (rest, c₂) => .ok (c :: rest, c₂)
          | .error e => .error e

mutual

/-- `ConfigParser::parse_one`: one step of the parser.  Returns the
parsed value, the new cursor and the new line counter. -/
def parseOne (input : List Char) :
    Nat → Nat → Nat → Except RErr (ConfigValue × Nat × Nat)
  | 0, _, _ => .error .panicked
  | fuel + 1, current, line =>
    match pPeek input current with
    | Option.none => .error .panicked
    | Option.some c =>
      if c = ' ' || c = '\t' || c = '\r' then
        .ok (.none, current + 1, line)
      else if c = '\n' then
        .ok (.none, current + 1, line + 1)
      else if c = '(' then
        match parseIdent input fuel (current + 1) with
        | .error e => .error e
        | .ok (key, c₂) =>
          match parseBody input fuel c₂ line with
          | .error e => .error e
          | .ok (body, c₃, l₃) =>
            match pPeek input c₃ with
            | Option.some ')' =>
              .ok (.pair (String.mk key) (.array body), c₃ + 1, l₃)
            | _ =>
              .error (.err ("line " ++ toString l₃ ++
                ": Expected `)`, found EOF."))
      else
        match parseIdent input fuel (current + 1) with
        | .error e => .error e
        | .ok (rest, c₂) => .ok (.ident (String.mk (c :: rest)), c₂, line)

/-- The body loop of the `'('` branch of `parse_one`: repeatedly parse
forms while not at end and the next character is not `)`, dropping
`None` results. -/
def parseBody (input : List Char) :
    Nat → Nat → Nat → Except RErr (List ConfigValue × Nat × Nat)
  | 0, _, _ => .error .panicked
  | fuel + 1, current, line =>
    if pIsAtEnd input current then
      .ok ([], current, line)
    else if pPeek input current = Option.some ')' then
      .ok ([], current, line)
    else
      match parseOne input fuel current line with
      | .error e => .error e
      | .ok (v, c₂, l₂) =>
        match parseBody input fuel c₂ l₂ with
        | .error e => .error e
        | .ok (vs, c₃, l₃) =>
          match v with
          | ConfigValue.none => .ok (vs, c₃, l₃)
          | _ => .ok (v :: vs, c₃, l₃)

end

/-- `ConfigParser::parse`: the top-level loop (parse forms while not at
end, dropping `None` results). -/
def parseMany (input : List Char) :
    Nat → Nat → Nat → Except RErr (List ConfigValue × Nat × Nat)
  | 0, _, _ => .error .panicked
  | fuel + 1, current, line =>
    if pIsAtEnd input current then
      .ok ([], current, line)
    else
      match parseOne input fuel current line with
      | .error e => .error e
      | .ok (v, c₂, l₂) =>
        match parseMany input fuel c₂ l₂ with
        | .error e => .error e
        | .ok (vs, c₃, l₃) =>
          match v with
          | ConfigValue.none => .ok (vs, c₃, l₃)
          | _ => .ok (v :: vs, c₃, l₃)

/-- Fuel sufficient for any parse of `input` (the recursion depth of
the original parser is bounded by a small multiple of the byte length;
every fuel-indexed lemma below holds for *every* fuel, so the precise
constant only matters for concrete evaluations). -/
def parseFuel (input : List Char) : Nat :=
  4 * byteLen input + 16

/-- `parse_string` from `src/config.rs`: parse a whole string, starting
at cursor 0, line 1. -/
def parseString (s : String) : Except RErr (List ConfigValue) :=
  match parseMany s.toList (parseFuel s.toList) 0 1 with
  | .error e => .error e
  | .ok (vs, _, _) => .ok vs

/-- `find_val` from `src/config.rs`: the body of the first `Pair` whose
key equals `key`, or `none`. -/
def find_val (values : List ConfigValue) (key : String) : Option ConfigValue :=
  match values with
  | [] => Option.none
  | v :: rest =>
    match v with
    | ConfigValue.pair k b =>
      if k = key then Option.some b else find_val rest key
    | _ => find_val rest key

example : parseString "(jsp a b c)\n(non plus)" =
    .ok [ConfigValue.pair "jsp" (.array [.ident "a", .ident "b", .ident "c"]),
         ConfigValue.pair "non" (.array [.ident "plus"])] := by rfl

example : parseString "(jsp a b" =
    .error (.err "line 1: Expected `)`, found EOF.") := by rfl

example : parseString "é" = .error .panicked := by rfl

example : parseString ")" = .ok [ConfigValue.ident ")"] := by rfl

/-! ## `src/project/project.rs`: the project model builder -/

/-- The `Std` enum (`#[repr(u8)]`, discriminants 89, 99, 11, 17, 23).
Named `CStd` here because `Std` is already a Lean library namespace. -/
inductive CStd where
  | c89 | c99 | c11 | c17 | c23
deriving Repr, DecidableEq

/-- The `u8` discriminant of a `Std` value (`*s as u8`). -/
def stdYear : CStd → Nat
  | .c89 => 89
  | .c99 => 99
  | .c11 => 11
  | .c17 => 17
  | .c23 => 23

/-- The `Standard` struct: a C dialect plus the GNU-extensions flag. -/
structure Standard where
  std : CStd
  gnu_extensions : Bool
deriving Repr, DecidableEq

/-- `impl Display for Standard`: format `{prefix}{year}` and then
`str::replace` every occurrence of `"23"` by `"2x"` in the whole
rendered string. -/
def renderStandard (s : Standard) : String :=
  strReplace ((if s.gnu_extensions then "gnu" else "c") ++
    toString (stdYear s.std)) "23" "2x"

/-- The `ProjectType` enum. -/
inductive ProjectType where
  | binary | shared | static
deriving Repr, DecidableEq

/-- `DEFAULT_COMPILER`. -/
def DEFAULT_COMPILER : String := "cc"

/-- `DEFAULT_FLAGS`. -/
def DEFAULT_FLAGS : List String :=
  ["-Wall", "-Wextra", "-Wwrite-strings", "-Werror=discarded-qualifiers"]

/-- `DEFAULT_STANDARD`: c99, no GNU extensions. -/
def DEFAULT_STANDARD : Standard := ⟨CStd.c99, false⟩

/-- `DEFAULT_PTYPE`. -/
def DEFAULT_PTYPE : ProjectType := ProjectType.binary

/-- The `Project` struct. -/
structure Project where
  name : String
  version : String
  standard : Standard
  compiler : String
  flags : List String
  ptype : ProjectType
deriving Repr, DecidableEq

/-- `get_first` from `src/project/project.rs`: the single `Ident` of a
one-element array, otherwise an error naming the key. -/
def get_first (av : List ConfigValue) (k : String) : Except String String :=
  if av.length = 1 then
    match av with
    | [ConfigValue.ident name] => .ok name
    | _ => .error ("Key `" ++ k ++ "` must be a single string.")
  else
    .error ("Key `" ++ k ++ "` must be a single string.")

/-- The list `standards` used when parsing the `standard` key. -/
def standardsList : List CStd := [CStd.c89, CStd.c99, CStd.c11, CStd.c17, CStd.c23]

/-- The invalid-standard error message (the `fold` in `from_config`). -/
def invalidStandardMsg (raw : String) : String :=
  "`" ++ raw ++ "` is not a valid C standard. Valid standards are: " ++
    (standardsList.foldl
      (fun acc v => acc ++ ", c" ++ toString (stdYear v) ++
        ", gnu" ++ toString (stdYear v))
      "ansi")

/-- The non-`ansi`, non-default branch of the `standard` key in
`from_config`: determine the prefix by `starts_with("gnu")`, then find
the first `Std` whose `{prefix}{year}` rendering equals `raw`. -/
def stdFromRaw (raw : String) : Except String Standard :=
  if raw = "ansi" then
    .ok ⟨CStd.c89, false⟩
  else
    let pfx := if strStartsWith raw "gnu" then "gnu" else "c"
    match standardsList.findSome?
        (fun s => if pfx ++ toString (stdYear s) = raw then Option.some s
                  else Option.none) with
    | Option.some s => .ok ⟨s, pfx = "gnu"⟩
    | Option.none => .error (invalidStandardMsg raw)

/-- The `flags` collection loop of `from_config`: every element must be
an `Ident`. -/
def collectFlags : List ConfigValue → Except String (List String)
  | [] => .ok []
  | ConfigValue.ident f :: rest =>
    match collectFlags rest with
    | .ok fs => .ok (f :: fs)
    | .error e => .error e
  | _ => .error "Each flag must be an identifier."

/-- `Project::from_config`: validate the top-level forms and build the
`Project` descriptor. -/
def fromConfig (vals : List ConfigValue) : Except String Project := do
  let name ←
    match find_val vals "name" with
    | Option.some (ConfigValue.array av) => get_first av "name"
    | _ => .error "Key `name` must be a single string."
  let version ←
    match find_val vals "version" with
    | Option.some (ConfigValue.array av) => get_first av "version"
    | _ => .error "Key `version` must be a single string."
  let standard ←
    match find_val vals "standard" with
    | Option.none => .ok DEFAULT_STANDARD
    | Option.some (ConfigValue.array av) => do
      let raw ← get_first av "standard"
      stdFromRaw raw
    | Option.some _ => .error "Key `standard` must be a single string."
  let compiler ←
    match find_val vals "cc" with
    | Option.none => .ok DEFAULT_COMPILER
    | Option.some (ConfigValue.array av) => get_first av "cc"
    | Option.some _ => .error "Key `cc` must be a single string."
  let flags ←
    match find_val vals "flags" with
    | Option.none => .ok DEFAULT_FLAGS
    | Option.some (ConfigValue.array av) => collectFlags av
    | Option.some _ => .error "Key `flags` must be an array."
  let ptype ←
    match find_val vals "type" with
    | Option.none => .ok DEFAULT_PTYPE
    | Option.some (ConfigValue.array av) =>
      match get_first av "type" with
      | .error e => .error e
      | .ok t =>
        if t = "binary" then .ok ProjectType.binary
        else if t = "shared" then .ok ProjectType.shared
        else if t = "static" then .ok ProjectType.static
        else .error ("`" ++ t ++
          "` is not a valid project type. Available project types: binary, shared, static.")
    | Option.some _ => .error "Key `type` must be a single string."
  pure { name := name, version := version, standard := standard,
         compiler := compiler, flags := flags, ptype := ptype }

example : fromConfig
    [ConfigValue.pair "name" (.array [.ident "x"]),
     ConfigValue.pair "version" (.array [.ident "0.1.0"]),
     ConfigValue.pair "standard" (.array [.ident "gnu23"])] =
    .ok ⟨"x", "0.1.0", ⟨CStd.c23, true⟩, "cc", DEFAULT_FLAGS, .binary⟩ := by rfl

example : renderStandard ⟨CStd.c23, true⟩ = "gnu2x" := by rfl
example : renderStandard ⟨CStd.c23, false⟩ = "c2x" := by rfl
example : renderStandard ⟨CStd.c99, false⟩ = "c99" := by rfl

/-! ## `src/project/manager.rs`: build-script hook and build orchestrator -/

/-- `POSSIBLE_SCRIPTS`: candidate build-script paths with their bound
interpreters, in the fixed candidate order. -/
def POSSIBLE_SCRIPTS : List (String × String) :=
  [("./build.sh", "sh"), ("./build.pl", "perl"), ("./build.py", "python3")]

/-- The candidate-selection loop of `run_build_script`: for each
`(script, interpreter)` pair in order, if the script exists on disk
(`ex`), overwrite `build_script` with it.  (There is no `break`, so the
last existing candidate is kept.) -/
def resolveBuildScript (ex : String → Bool) : Option (String × String) :=
  POSSIBLE_SCRIPTS.foldl
    (fun acc sc => if ex sc.1 then Option.some sc else acc)
    Option.none

/-- The external command `run_build_script` invokes, as a
`(program, argument)` pair: the code destructures the stored pair as
`Some((interpreter, script))` and runs `Command::new(interpreter).arg(script)`,
so the program is the stored pair's first component (the script path)
and the argument is its second (the interpreter name). -/
def runBuildScriptCmd (ex : String → Bool) : Option (String × String) :=
  match resolveBuildScript ex with
  | Option.some (interpreter, script) => Option.some (interpreter, script)
  | Option.none => Option.none

/-- The message enumerating the candidates when no build script exists
(the `fold` in `run_build_script`). -/
def noBuildScriptMsg : String :=
  "No buildscript found. Possible build scripts: " ++
    (POSSIBLE_SCRIPTS.foldl
      (fun acc sc => if acc = "" then sc.1 else acc ++ "," ++ sc.1) "") ++ "."

/-- `run_build_script`: resolve a candidate, run it (the `st` oracle
gives the exit-status success of a `(program, argument)` invocation) and
fail with the fail-fast message on a non-zero exit; error if no
candidate exists. -/
def runBuildScript (ex : String → Bool) (st : String → String → Bool) :
    Except String Unit :=
  match resolveBuildScript ex with
  | Option.some (interpreter, script) =>
    if st interpreter script then .ok ()
    else .error "Aborting at first failed command."
  | Option.none => .error noBuildScriptMsg

/-- Modelled from the spec: the `BuildScript` timing enum (`Before`,
`Repeat`, `After` and a default "none" timing).  Its definition is not
under `src/` (only `manager.rs` uses it); the spec gives the four
timings. -/
inductive BuildScript where
  | before | repeat | after | noScript
deriving Repr, DecidableEq

example : resolveBuildScript (fun _ => true) = Option.some ("./build.py", "python3") := by rfl
example : runBuildScriptCmd (fun s => s == "./build.sh") = Option.some ("./build.sh", "sh") := by rfl

/-- The object path computed in the compile loop of `build_project`:
`./build/` + (the file path with its first 6 characters — the `./src/`
prefix — skipped, every `/` replaced by `_`, and every occurrence of
`.c` replaced by `.o`). -/
def objPath (file : String) : String :=
  "./build/" ++
    strReplace (strReplace (String.mk (file.toList.drop 6)) "/" "_") ".c" ".o"

/-- An external process invocation: the program and its argument list. -/
structure Invocation where
  program : String
  args : List String
deriving Repr, DecidableEq

/-- The per-file compile invocation built by the loop of
`build_project`: the project's flags, then `-fpic` for a shared
project, then the `-std=` token, then `-c <file> -o <objPath file>`. -/
def compileInvocation (p : Project) (file : String) : Invocation :=
  { program := p.compiler
    args := p.flags ++
      (if p.ptype = ProjectType.shared then ["-fpic"] else []) ++
      ["-std=" ++ renderStandard p.standard] ++
      ["-c", file, "-o"] ++ [objPath file] }

/-- The link invocation of `build_project`, according to the project
type: compiler with `<objs> -o <name>` for a binary, `ar rcs <objs>
lib<name>.a` for a static library, compiler with `<objs> -shared -o
lib<name>.so` for a shared library. -/
def linkInvocation (p : Project) (objs : List String) : Invocation :=
  match p.ptype with
  | ProjectType.binary =>
    { program := p.compiler, args := objs ++ ["-o", p.name] }
  | ProjectType.static =>
    { program := "ar", args := "rcs" :: objs ++ ["lib" ++ p.name ++ ".a"] }
  | ProjectType.shared =>
    { program := p.compiler,
      args := objs ++ ["-shared", "-o", "lib" ++ p.name ++ ".so"] }

/-- The compile loop of `build_project` over the discovered source
files.  `st` gives the exit-status success of an invocation and `hook`
is the (deterministic) result of `run_build_script`.  Returns the list
of compile invocations actually attempted, paired with either the
collected object paths or the first error (a failed compile aborts with
the fail-fast message; with the `Repeat` timing a failed hook aborts
with the hook's error). -/
def compileAll (p : Project) (st : Invocation → Bool)
    (hook : Except String Unit) (bs : BuildScript) :
    List String → List Invocation × Except String (List String)
  | [] => ([], .ok [])
  | f :: rest =>
    let inv := compileInvocation p f
    if st inv then
      match (if bs = BuildScript.repeat then hook else .ok ()) with
      | .error e => ([inv], .error e)
      | .ok () =>
        let r := compileAll p st hook bs rest
        (inv :: r.1,
          match r.2 with
          | .ok objs => .ok (objPath f :: objs)
          | .error e => .error e)
    else
      ([inv], .error "Aborting at first failed command.")

/-- The flag adjustment at the top of `build_project`: a release build
appends `-O3` to the project's flags. -/
def releaseProject (p : Project) (release : Bool) : Project :=
  if release then { p with flags := p.flags ++ ["-O3"] } else p

/-- `build_project` (its pure core): append `-O3` to the flags on a
release build, return the hook's result alone for the `Before` timing,
otherwise compile every `.c` file in the discovered list (fail-fast),
then link (fail-fast), then run the hook for the `After` timing.
Returns the compile/link invocations attempted in order, paired with
the overall result. -/
def buildProjectRun (p : Project) (release : Bool) (st : Invocation → Bool)
    (hook : Except String Unit) (bs : BuildScript) (discovered : List String) :
    List Invocation × Except String Unit :=
  if bs = BuildScript.before then
    ([], hook)
  else
    match compileAll (releaseProject p release) st hook bs
        (discovered.filter (fun f => strEndsWith f ".c")) with
    | (tr, .error e) => (tr, .error e)
    | (tr, .ok objs) =>
      let linv := linkInvocation (releaseProject p release) objs
      if st linv then
        (tr ++ [linv], if bs = BuildScript.after then hook else .ok ())
      else
        (tr ++ [linv], .error "Aborting at first failed command.")

example : objPath "./src/main.c" = "./build/main.o" := by rfl
example : objPath "./src/sub/dir/x.c" = "./build/sub_dir_x.o" := by rfl
example : objPath "./src/a.c.c" = "./build/a.o.o" := by rfl

/-! ## Claim-side (specification) definitions -/

/-- Does a node match a given key, i.e. is it a `Pair` with that key?
(Spec: "the first top-level `KeyedList` whose key equals `key`".) -/
def keyMatches (key : String) : ConfigValue → Bool
  | ConfigValue.pair k _ => k == key
  | _ => false

/-- The body of a `Pair` node, if the node is one. -/
def bodyOf : ConfigValue → Option ConfigValue
  | ConfigValue.pair _ b => Option.some b
  | _ => Option.none

/-- Strip a literal prefix from a string (spec: "stripping the
source-root prefix from the source path"). -/
def stripPrefixStr (pre s : String) : String :=
  if pre.toList.isPrefixOf s.toList then String.mk (s.toList.drop pre.toList.length)
  else s

/-- Replace only a trailing `.c` extension by `.o` (the object-path
transform exactly as claim C3 words it: "only the extension is
replaced; the rest of the file name is otherwise unchanged"). -/
def replaceExtOnly (s : String) : String :=
  if strEndsWith s ".c" then String.mk (s.toList.dropLast.dropLast ++ ['.', 'o'])
  else s

/-- The object path as claim C3 states it: build dir + (path minus the
source root, separators to `_`, only the extension `.c` changed to
`.o`). -/
def objPathClaim (file : String) : String :=
  "./build/" ++ replaceExtOnly (strReplace (stripPrefixStr "./src/" file) "/" "_")

/-- The object path as the amended claim states it: as `objPathClaim`
but with *every* occurrence of `.c` replaced by `.o`. -/
def objPathSpec (file : String) : String :=
  "./build/" ++ strReplace (strReplace (stripPrefixStr "./src/" file) "/" "_") ".c" ".o"

/-- Whitespace characters in the sense of the parser's delimiter set. -/
def isWsChar (c : Char) : Bool :=
  c == ' ' || c == '\t' || c == '\r' || c == '\n'

mutual

/-- `identsSatisfy P v`: every `Ident` node in the value tree `v`
satisfies `P`. -/
def identsSatisfy (P : String → Bool) : ConfigValue → Bool
  | ConfigValue.ident s => P s
  | ConfigValue.array vs => identsSatisfyList P vs
  | ConfigValue.pair _ v => identsSatisfy P v
  | ConfigValue.none => true

/-- `identsSatisfyList P vs`: every `Ident` node in any tree of the
list satisfies `P`. -/
def identsSatisfyList (P : String → Bool) : List ConfigValue → Bool
  | [] => true
  | v :: rest => identsSatisfy P v && identsSatisfyList P rest

end

/-- The property claim C9 asserts of every identifier: it contains no
whitespace character and no `)` character. -/
def noWsNoParen (s : String) : Bool :=
  s.toList.all (fun c => !(isWsChar c) && c != ')')

/-- The amended identifier property: no whitespace anywhere, and `)`
at most as the identifier's first character. -/
def noWsNoParenTail (s : String) : Bool :=
  s.toList.all (fun c => !(isWsChar c)) &&
    (s.toList.drop 1).all (fun c => c != ')')

/-- Does the `name`/`version`-style lookup of `vals` at key `k` have
the required shape, a `List` containing exactly one `Identifier`? -/
def singleIdentShape (vals : List ConfigValue) (k : String) : Bool :=
  match find_val vals k with
  | Option.some (ConfigValue.array [ConfigValue.ident _]) => true
  | _ => false

/-- Is `r` an error whose message names (contains) `k`? -/
def errNames (r : Except String Project) (k : String) : Bool :=
  match r with
  | .error e => strContainsSub e k
  | _ => false

/-- The six top-level keys `Project::from_config` recognizes. -/
def recognizedKeys : List String :=
  ["name", "version", "standard", "cc", "flags", "type"]

/-- A top-level node the model builder can see: a `Pair` keyed by a
recognized key.  All other nodes are invisible to `from_config`. -/
def relevantNode : ConfigValue → Bool
  | ConfigValue.pair k _ => recognizedKeys.contains k
  | _ => false

/-! ## C8: `find_val` returns the first matching pair's body -/

/-- C8: for every form list and key, `find_val` returns the body of the
first `Pair` (in document order) whose key equals the searched key —
later pairs with the same key are shadowed, never an error — and
returns `none` when no pair matches.  Stated as: `find_val` equals
first-match lookup (`List.find?`) followed by body extraction. -/
theorem c8_find_val_first_match (vals : List ConfigValue) (key : String) :
    find_val vals key = (vals.find? (keyMatches key)).bind bodyOf := by
  induction vals with
  | nil => rfl
  | cons v rest ih =>
    cases v with
    | pair k b =>
      by_cases h : k = key
      · simp [find_val, h, List.find?_cons, keyMatches, bodyOf]
      · simp [find_val, h, List.find?_cons, keyMatches, bodyOf, ih]
    | ident s => simpa [find_val, List.find?_cons, keyMatches] using ih
    | array vs => simpa [find_val, List.find?_cons, keyMatches] using ih
    | none => simpa [find_val, List.find?_cons, keyMatches] using ih

/-! ## C1: which build-script candidate is selected -/

/-- C1 counterexample: when every candidate exists on disk, the first
existing candidate is `./build.sh`, but the resolution loop selects
`./build.py` — the claim that "the hook that gets run is the first
candidate that exists" is false. -/
theorem c1_counterexample :
    POSSIBLE_SCRIPTS.find? (fun sc => (fun _ => true : String → Bool) sc.1) =
      Option.some ("./build.sh", "sh") ∧
    resolveBuildScript (fun _ => true) = Option.some ("./build.py", "python3") ∧
    (Option.some (("./build.py", "python3") : String × String) ≠
      Option.some ("./build.sh", "sh")) := by
  refine ⟨rfl, rfl, by decide⟩

/-- C1 (amended): the hook that gets run is the *last* candidate, in
the fixed candidate order, that exists on disk — later existing
candidates override earlier ones (and no candidate existing gives
`none`). -/
theorem c1_last_existing_candidate_selected (ex : String → Bool) :
    resolveBuildScript ex =
      (POSSIBLE_SCRIPTS.filter (fun sc => ex sc.1)).getLast? := by
  by_cases h1 : ex "./build.sh" <;> by_cases h2 : ex "./build.pl" <;>
    by_cases h3 : ex "./build.py" <;>
    simp [resolveBuildScript, POSSIBLE_SCRIPTS, List.filter, h1, h2, h3,
      List.getLast?]

/-! ## C2: the command the build-script hook invokes -/

/-- C2: when only `./build.sh` exists, the hook's external process is
`./build.sh` with argument `sh` — the script path as the program and
the interpreter name as its argument, not the claimed
`<interpreter> <script>` — while a failing exit status does abort with
the same fail-fast message as compiler invocations. -/
theorem c2_interpreter_script_swapped :
    runBuildScriptCmd (fun s => s == "./build.sh") =
      Option.some ("./build.sh", "sh") ∧
    (("./build.sh" : String) ≠ "sh") ∧
    runBuildScript (fun s => s == "./build.sh") (fun _ _ => false) =
      .error "Aborting at first failed command." := by
  refine ⟨rfl, by decide, rfl⟩

/-! ## C3: the object-path transform -/

/-- C3 counterexample: for the discovered source file `./src/a.c.c`
(whose name contains `.c` before the extension), the code produces
`./build/a.o.o`, not the `./build/a.c.o` the claim's "only the
extension is replaced" requires. -/
theorem c3_counterexample :
    objPath "./src/a.c.c" = "./build/a.o.o" ∧
    objPathClaim "./src/a.c.c" = "./build/a.c.o" ∧
    objPath "./src/a.c.c" ≠ objPathClaim "./src/a.c.c" := by
  refine ⟨rfl, rfl, by decide⟩

/-- C3 (amended): for every source path under the source root, the
object path is the fixed build-output directory joined with the path
minus the source-root prefix, with every path separator replaced by `_`
and every occurrence of the source extension `.c` replaced by `.o`. -/
theorem c3_object_path_transform (file : String)
    (h : strStartsWith file "./src/" = true) :
    objPath file = objPathSpec file := by
  unfold objPath objPathSpec stripPrefixStr
  unfold strStartsWith at h
  rw [if_pos h]
  have h6 : "./src/".toList.length = 6 := rfl
  rw [h6]

/-- C3 witness: the amended theorem at `./src/main.c`. -/
theorem c3_object_path_transform_witness :
    strStartsWith "./src/main.c" "./src/" = true ∧
    objPath "./src/main.c" = objPathSpec "./src/main.c" :=
  ⟨by decide, c3_object_path_transform "./src/main.c" (by decide)⟩

/-! ## C6: rendering of accepted `standard` tokens -/

/-- Shape of a successful `stdFromRaw` result: either the token is
`ansi` (dialect c89, no extensions), or the token is the computed
prefix followed by the decimal year of some `CStd`, with the GNU flag
equal to the `gnu`-prefix test. -/
lemma stdFromRaw_shape (raw : String) (std : Standard)
    (h : stdFromRaw raw = .ok std) :
    (raw = "ansi" ∧ std = ⟨CStd.c89, false⟩) ∨
    (∃ t : CStd, strStartsWith raw "gnu" = true ∧
      raw = "gnu" ++ toString (stdYear t) ∧ std = ⟨t, true⟩) ∨
    (∃ t : CStd, strStartsWith raw "gnu" = false ∧
      raw = "c" ++ toString (stdYear t) ∧ std = ⟨t, false⟩) := by
  unfold stdFromRaw at h
  by_cases ha : raw = "ansi"
  · rw [if_pos ha] at h
    cases h
    exact Or.inl ⟨ha, rfl⟩
  · rw [if_neg ha] at h
    cases hg : strStartsWith raw "gnu" with
    | true =>
      refine Or.inr (Or.inl ?_)
      simp only [hg, eq_self_iff_true, if_true] at h
      split at h
      · next t heq =>
        cases h
        obtain ⟨a, _, hfa⟩ := List.exists_of_findSome?_eq_some heq
        by_cases he : "gnu" ++ toString (stdYear a) = raw
        · rw [if_pos he] at hfa
          cases hfa
          exact ⟨_, rfl, he.symm, rfl⟩
        · rw [if_neg he] at hfa
          exact absurd hfa (by simp)
      · next => cases h
    | false =>
      refine Or.inr (Or.inr ?_)
      simp only [hg, Bool.false_eq_true, if_false] at h
      split at h
      · next t heq =>
        cases h
        obtain ⟨a, _, hfa⟩ := List.exists_of_findSome?_eq_some heq
        by_cases he : "c" ++ toString (stdYear a) = raw
        · rw [if_pos he] at hfa
          cases hfa
          exact ⟨_, rfl, he.symm, rfl⟩
        · rw [if_neg he] at hfa
          exact absurd hfa (by simp)
      · next => cases h

/-- C6: for every accepted `standard` token, the parsed dialect's GNU
flag is true iff the token starts with `gnu`, and the rendered
compiler-flag token is the prefix (`gnu` or `c`) followed by the year's
decimal digits, except that year 23 renders as `2x`; in particular
`gnu23` is accepted as `⟨c23, gnu⟩` and renders as `-std=gnu2x`. -/
theorem c6_standard_token_rendering (raw : String) (std : Standard)
    (h : stdFromRaw raw = .ok std) :
    std.gnu_extensions = strStartsWith raw "gnu" ∧
    renderStandard std =
      (if strStartsWith raw "gnu" then "gnu" else "c") ++
      (if stdYear std.std = 23 then "2x" else toString (stdYear std.std)) ∧
    stdFromRaw "gnu23" = .ok ⟨CStd.c23, true⟩ ∧
    "-std=" ++ renderStandard ⟨CStd.c23, true⟩ = "-std=gnu2x" := by
  have flag : std.gnu_extensions = strStartsWith raw "gnu" := by
    rcases stdFromRaw_shape raw std h with ⟨ha, hstd⟩ |
      ⟨t, hg, _, hstd⟩ | ⟨t, hg, _, hstd⟩ <;> subst hstd
    · rw [ha]
      decide
    · rw [hg]
    · rw [hg]
  have rend : renderStandard std =
      (if strStartsWith raw "gnu" then "gnu" else "c") ++
      (if stdYear std.std = 23 then "2x" else toString (stdYear std.std)) := by
    rcases stdFromRaw_shape raw std h with ⟨ha, hstd⟩ |
      ⟨t, hg, _, hstd⟩ | ⟨t, hg, _, hstd⟩ <;> subst hstd
    · rw [ha]
      decide
    · simp only [hg, eq_self_iff_true, if_true]
      cases t <;> decide
    · simp only [hg, Bool.false_eq_true, if_false]
      cases t <;> decide
  exact ⟨flag, rend, rfl, rfl⟩

/-- C6 witness: the theorem applied at the accepted token `gnu23`. -/
theorem c6_standard_token_rendering_witness :
    (⟨CStd.c23, true⟩ : Standard).gnu_extensions = strStartsWith "gnu23" "gnu" ∧
    renderStandard ⟨CStd.c23, true⟩ =
      (if strStartsWith "gnu23" "gnu" then "gnu" else "c") ++
      (if stdYear CStd.c23 = 23 then "2x" else toString (stdYear CStd.c23)) ∧
    stdFromRaw "gnu23" = .ok ⟨CStd.c23, true⟩ ∧
    "-std=" ++ renderStandard ⟨CStd.c23, true⟩ = "-std=gnu2x" :=
  c6_standard_token_rendering "gnu23" ⟨CStd.c23, true⟩ rfl

/-! ## C7: `name` and `version` are required single identifiers -/

/-- `get_first` fails with the key-naming message whenever its input is
not a one-element list holding an `Ident`. -/
lemma get_first_not_single (av : List ConfigValue) (k : String)
    (h : (match av with
          | [ConfigValue.ident _] => true
          | _ => false) = false) :
    get_first av k = .error ("Key `" ++ k ++ "` must be a single string.") := by
  rcases av with _ | ⟨v1, av'⟩
  · rfl
  · rcases av' with _ | ⟨v2, av''⟩
    · cases v1 with
      | ident s => simp at h
      | array a => rfl
      | pair a b => rfl
      | none => rfl
    · unfold get_first
      rw [if_neg (by simp [List.length_cons])]

/-- A true `singleIdentShape` is exactly a one-`Ident` array under the
key. -/
lemma singleIdentShape_true (vals : List ConfigValue) (k : String)
    (h : singleIdentShape vals k = true) :
    ∃ s, find_val vals k =
      Option.some (ConfigValue.array [ConfigValue.ident s]) := by
  unfold singleIdentShape at h
  rcases hf : find_val vals k with _ | v
  · rw [hf] at h
    simp at h
  · rw [hf] at h
    cases v with
    | array av =>
      rcases av with _ | ⟨v1, av'⟩
      · simp at h
      · rcases av' with _ | ⟨v2, av''⟩
        · cases v1 with
          | ident s => exact ⟨s, rfl⟩
          | array a => simp at h
          | pair a b => simp at h
          | none => simp at h
        · simp at h
    | ident s => simp at h
    | pair a b => simp at h
    | none => simp at h

/-- A false `singleIdentShape` for `name` makes `from_config` fail with
the message naming `name`. -/
lemma fromConfig_name_err (vals : List ConfigValue)
    (h : singleIdentShape vals "name" = false) :
    fromConfig vals = .error "Key `name` must be a single string." := by
  unfold fromConfig
  unfold singleIdentShape at h
  rcases hn : find_val vals "name" with _ | v
  · simp only [hn]
    rfl
  · rw [hn] at h
    simp only [hn]
    cases v with
    | array av =>
      have hg : get_first av "name" =
          .error "Key `name` must be a single string." :=
        get_first_not_single av "name" (by
          rcases av with _ | ⟨v1, av'⟩
          · rfl
          · rcases av' with _ | ⟨v2, av''⟩
            · cases v1 <;> simpa using h
            · cases v1 <;> rfl)
      simp only [hg]
      rfl
    | ident s => rfl
    | pair a b => rfl
    | none => rfl

/-- With a well-shaped `name`, a false `singleIdentShape` for `version`
makes `from_config` fail with the message naming `version`. -/
lemma fromConfig_version_err (vals : List ConfigValue)
    (h1 : singleIdentShape vals "name" = true)
    (h2 : singleIdentShape vals "version" = false) :
    fromConfig vals = .error "Key `version` must be a single string." := by
  obtain ⟨n, hn⟩ := singleIdentShape_true vals "name" h1
  unfold fromConfig
  unfold singleIdentShape at h2
  simp only [hn, show get_first [ConfigValue.ident n] "name" = .ok n from rfl]
  rcases hv : find_val vals "version" with _ | v
  · try simp only [hv]
    rfl
  · rw [hv] at h2
    try simp only [hv]
    cases v with
    | array av =>
      have hg : get_first av "version" =
          .error "Key `version` must be a single string." :=
        get_first_not_single av "version" (by
          rcases av with _ | ⟨v1, av'⟩
          · rfl
          · rcases av' with _ | ⟨v2, av''⟩
            · cases v1 <;> simpa using h2
            · cases v1 <;> rfl)
      simp only [hg]
      rfl
    | ident s => rfl
    | pair a b => rfl
    | none => rfl

/-- C7: the model builder succeeds only when both `name` and `version`
resolve to a one-`Identifier` list; a badly shaped (or absent) `name`
fails with a validation error naming `name`, and with a well-shaped
`name`, a badly shaped (or absent) `version` fails with a validation
error naming `version`. -/
theorem c7_name_version_required (vals : List ConfigValue) :
    ((fromConfig vals).isOk = true →
      singleIdentShape vals "name" = true ∧
      singleIdentShape vals "version" = true) ∧
    (singleIdentShape vals "name" = false →
      errNames (fromConfig vals) "name" = true) ∧
    (singleIdentShape vals "name" = true →
      singleIdentShape vals "version" = false →
      errNames (fromConfig vals) "version" = true) := by
  refine ⟨?_, ?_, ?_⟩
  · intro hok
    by_cases h1 : singleIdentShape vals "name" = true
    · by_cases h2 : singleIdentShape vals "version" = true
      · exact ⟨h1, h2⟩
      · have h2f : singleIdentShape vals "version" = false := by
          simpa using h2
        rw [fromConfig_version_err vals h1 h2f] at hok
        simp [Except.isOk, Except.toBool] at hok
    · have h1f : singleIdentShape vals "name" = false := by
        simpa using h1
      rw [fromConfig_name_err vals h1f] at hok
      simp [Except.isOk, Except.toBool] at hok
  · intro hf
    rw [fromConfig_name_err vals hf]
    decide
  · intro h1 h2
    rw [fromConfig_version_err vals h1 h2]
    decide

/-- C7 witness: the theorem applied to a form list missing `name`, one
with a two-identifier `name` and a missing `version`, and a well-formed
one. -/
theorem c7_name_version_required_witness :
    errNames (fromConfig [ConfigValue.pair "version"
      (.array [.ident "1"])]) "name" = true ∧
    errNames (fromConfig [ConfigValue.pair "name"
      (.array [.ident "a", .ident "b"]),
      ConfigValue.pair "version" (.array [.ident "1"])]) "name" = true ∧
    errNames (fromConfig [ConfigValue.pair "name"
      (.array [.ident "a"])]) "version" = true ∧
    (singleIdentShape [ConfigValue.pair "name" (.array [.ident "a"]),
      ConfigValue.pair "version" (.array [.ident "1"])] "name" = true ∧
     singleIdentShape [ConfigValue.pair "name" (.array [.ident "a"]),
      ConfigValue.pair "version" (.array [.ident "1"])] "version" = true) :=
  ⟨(c7_name_version_required _).2.1 rfl,
   (c7_name_version_required _).2.1 rfl,
   (c7_name_version_required _).2.2 rfl rfl,
   (c7_name_version_required _).1 rfl⟩

/-! ## C5: the parser's failure modes -/

/-- C5: evaluating the parser at the claim's inputs.  On `"(jsp a b"`
the parser fails with the end-of-input syntax error tagged line 1, as
the claim says; but on the two-byte character `"é"` — an input with no
`(` at all, which the claim says must parse successfully — the parser
panics (`peek().unwrap()` on `None`), because `is_at_end` compares the
char-index cursor against the *byte* length of the input. -/
theorem c5_parser_panics_on_multibyte :
    parseString "(jsp a b" = .error (.err "line 1: Expected `)`, found EOF.") ∧
    parseString "é" = .error .panicked ∧
    ("é".toList.all (fun c => c != '(')) = true := by
  refine ⟨rfl, rfl, by decide⟩

/-! ## C10: insensitivity to unrecognized top-level content -/

/-- For a recognized key, `find_val` sees only the `Pair` nodes keyed
by recognized keys: filtering the others out does not change the
lookup. -/
lemma find_val_filter_relevant (vals : List ConfigValue) (k : String)
    (hk : recognizedKeys.contains k = true) :
    find_val vals k = find_val (vals.filter relevantNode) k := by
  induction vals with
  | nil => rfl
  | cons v rest ih =>
    cases v with
    | pair k' b =>
      by_cases hkk : k' = k
      · subst hkk
        have hk' : k' ∈ recognizedKeys := by simpa using hk
        simp [List.filter_cons, relevantNode, hk, hk', find_val]
      · cases hrel : relevantNode (ConfigValue.pair k' b) with
        | true => simp [List.filter_cons, hrel, find_val, hkk, ih]
        | false => simp [List.filter_cons, hrel, find_val, hkk, ih]
    | ident s => simpa [List.filter_cons, relevantNode, find_val] using ih
    | array vs => simpa [List.filter_cons, relevantNode, find_val] using ih
    | none => simpa [List.filter_cons, relevantNode, find_val] using ih

/-- C10: the model builder is insensitive to unrecognized top-level
content — two form lists that agree on their subsequence of `Pair`
nodes keyed by a recognized key (i.e. differ only by inserting or
removing bare `Ident`s, anonymous `Array`s, or `Pair`s with
unrecognized keys) build to the same result. -/
theorem c10_unrecognized_content_ignored (v₁ v₂ : List ConfigValue)
    (h : v₁.filter relevantNode = v₂.filter relevantNode) :
    fromConfig v₁ = fromConfig v₂ := by
  have e : ∀ k, recognizedKeys.contains k = true →
      find_val v₁ k = find_val v₂ k := by
    intro k hk
    rw [find_val_filter_relevant v₁ k hk, find_val_filter_relevant v₂ k hk, h]
  unfold fromConfig
  simp only [e "name" (by decide), e "version" (by decide),
    e "standard" (by decide), e "cc" (by decide), e "flags" (by decide),
    e "type" (by decide)]

/-- C10 witness: inserting a bare identifier, an unrecognized-key pair
and an anonymous list does not change the built project. -/
theorem c10_unrecognized_content_ignored_witness :
    ([ConfigValue.pair "name" (.array [.ident "demo"]),
      ConfigValue.pair "version" (.array [.ident "1"])].filter relevantNode =
     [ConfigValue.ident "junk",
      ConfigValue.pair "name" (.array [.ident "demo"]),
      ConfigValue.pair "unknownkey" (.array [.ident "x"]),
      ConfigValue.pair "version" (.array [.ident "1"]),
      ConfigValue.array []].filter relevantNode) ∧
    fromConfig [ConfigValue.pair "name" (.array [.ident "demo"]),
      ConfigValue.pair "version" (.array [.ident "1"])] =
    fromConfig [ConfigValue.ident "junk",
      ConfigValue.pair "name" (.array [.ident "demo"]),
      ConfigValue.pair "unknownkey" (.array [.ident "x"]),
      ConfigValue.pair "version" (.array [.ident "1"]),
      ConfigValue.array []] :=
  ⟨rfl, c10_unrecognized_content_ignored _ _ rfl⟩

/-! ## C4: fail-fast compilation -/

/-- The compile loop stops at the first failing file: with all earlier
compiles succeeding and the hook succeeding, a failing compile makes
the loop return exactly the invocations up to and including the failed
one, with the fail-fast error. -/
lemma compileAll_fail (p : Project) (st : Invocation → Bool)
    (bs : BuildScript) (bad : String) (post : List String)
    (hbad : st (compileInvocation p bad) = false) :
    ∀ pre : List String,
      (∀ f ∈ pre, st (compileInvocation p f) = true) →
      compileAll p st (.ok ()) bs (pre ++ bad :: post) =
        ((pre ++ [bad]).map (compileInvocation p),
          .error "Aborting at first failed command.") := by
  intro pre
  induction pre with
  | nil =>
    intro _
    simp [compileAll, hbad]
  | cons f pre' ih =>
    intro hpre
    have hf : st (compileInvocation p f) = true := hpre f (by simp)
    have hpre' : ∀ g ∈ pre', st (compileInvocation p g) = true :=
      fun g hg => hpre g (by simp [hg])
    simp [compileAll, hf, ite_self, ih hpre']

/-- C4: if the compile invocation for some discovered source file exits
non-zero (all earlier ones succeeding, the hook succeeding), the build
orchestrator aborts immediately: the attempted invocations are exactly
the compiles of the files up to and including the failing one — no
later file is compiled and the link step is never attempted. -/
theorem c4_fail_fast_aborts_build (p : Project) (release : Bool)
    (st : Invocation → Bool) (bs : BuildScript) (discovered : List String)
    (pre : List String) (bad : String) (post : List String)
    (hbs : bs ≠ BuildScript.before)
    (hfiles : discovered.filter (fun f => strEndsWith f ".c") =
      pre ++ bad :: post)
    (hpre : ∀ f ∈ pre,
      st (compileInvocation (releaseProject p release) f) = true)
    (hbad : st (compileInvocation (releaseProject p release) bad) = false) :
    buildProjectRun p release st (.ok ()) bs discovered =
      ((pre ++ [bad]).map (compileInvocation (releaseProject p release)),
        .error "Aborting at first failed command.") := by
  unfold buildProjectRun
  rw [if_neg hbs, hfiles,
    compileAll_fail (releaseProject p release) st bs bad post hbad pre hpre]

/-- C4 witness: a three-file build in which the second compile fails
attempts exactly the first two compile invocations and no link. -/
theorem c4_fail_fast_aborts_build_witness :
    ((["./src/a.c", "./src/b.c", "./src/c.c"].filter
        (fun f => strEndsWith f ".c")) =
      ["./src/a.c"] ++ "./src/b.c" :: ["./src/c.c"]) ∧
    ((fun inv => decide (inv ≠ compileInvocation
        (releaseProject ⟨"demo", "0.1.0", DEFAULT_STANDARD, "cc",
          DEFAULT_FLAGS, ProjectType.binary⟩ false) "./src/b.c"))
      (compileInvocation (releaseProject ⟨"demo", "0.1.0",
        DEFAULT_STANDARD, "cc", DEFAULT_FLAGS, ProjectType.binary⟩ false)
        "./src/b.c") = false) ∧
    buildProjectRun
      ⟨"demo", "0.1.0", DEFAULT_STANDARD, "cc", DEFAULT_FLAGS,
        ProjectType.binary⟩ false
      (fun inv => decide (inv ≠ compileInvocation
        (releaseProject ⟨"demo", "0.1.0", DEFAULT_STANDARD, "cc",
          DEFAULT_FLAGS, ProjectType.binary⟩ false) "./src/b.c"))
      (.ok ()) BuildScript.noScript
      ["./src/a.c", "./src/b.c", "./src/c.c"] =
      ((["./src/a.c"] ++ ["./src/b.c"]).map (compileInvocation
        (releaseProject ⟨"demo", "0.1.0", DEFAULT_STANDARD, "cc",
          DEFAULT_FLAGS, ProjectType.binary⟩ false)),
        .error "Aborting at first failed command.") :=
  ⟨rfl, by decide,
   c4_fail_fast_aborts_build _ false _ BuildScript.noScript _
     ["./src/a.c"] "./src/b.c" ["./src/c.c"]
     (by decide) rfl (by decide) (by decide)⟩

/-! ## C9: characters of identifiers in parsed trees -/

/-- A non-terminating character is neither whitespace nor `)`. -/
lemma not_terminating_char (x : Char) (h : identTerminating x = false) :
    isWsChar x = false ∧ (x != ')') = true := by
  have h1 : x ≠ '\n' := by intro e; subst e; simp [identTerminating] at h
  have h2 : x ≠ '\r' := by intro e; subst e; simp [identTerminating] at h
  have h3 : x ≠ ' ' := by intro e; subst e; simp [identTerminating] at h
  have h4 : x ≠ '\t' := by intro e; subst e; simp [identTerminating] at h
  have h5 : x ≠ ')' := by intro e; subst e; simp [identTerminating] at h
  exact ⟨by simp [isWsChar, h1, h2, h3, h4], by simp [h5]⟩

/-- Every character consumed by `parse_ident` is non-terminating. -/
lemma parseIdent_chars (input : List Char) :
    ∀ fuel current cs c₂,
      parseIdent input fuel current = .ok (cs, c₂) →
      ∀ c ∈ cs, identTerminating c = false := by
  intro fuel
  induction fuel with
  | zero =>
    intro current cs c₂ h
    simp [parseIdent] at h
  | succ f ih =>
    intro current cs c₂ h
    unfold parseIdent at h
    split at h
    · cases h
      intro c hc
      exact absurd hc (by simp)
    · split at h
      · exact absurd h (by simp)
      · next c hpc =>
        split at h
        · cases h
          intro x hx
          exact absurd hx (by simp)
        · next hterm =>
          split at h
          · next rest c₂x hrec =>
            cases h
            intro x hx
            rcases List.mem_cons.mp hx with rfl | hx2
            · simpa using hterm
            · exact ih _ _ _ hrec x hx2
          · exact absurd h (by simp)

/-- Joint invariant of `parse_one` and its body loop: every `Ident`
node of a successfully parsed value contains no whitespace, and `)` at
most as its first character. -/
lemma parse_invariant (input : List Char) :
    ∀ fuel,
      (∀ current line v c₂ l₂,
        parseOne input fuel current line = .ok (v, c₂, l₂) →
        identsSatisfy noWsNoParenTail v = true) ∧
      (∀ current line vs c₂ l₂,
        parseBody input fuel current line = .ok (vs, c₂, l₂) →
        identsSatisfyList noWsNoParenTail vs = true) := by
  intro fuel
  induction fuel with
  | zero =>
    constructor
    · intro current line v c₂ l₂ h
      simp [parseOne] at h
    · intro current line vs c₂ l₂ h
      simp [parseBody] at h
  | succ f ih =>
    obtain ⟨ihOne, ihBody⟩ := ih
    constructor
    · intro current line v c₂ l₂ h
      unfold parseOne at h
      split at h
      · exact absurd h (by simp)
      · next c hpc =>
        split at h
        · cases h
          simp [identsSatisfy]
        · next hws =>
          split at h
          · cases h
            simp [identsSatisfy]
          · next hnl =>
            split at h
            · next hpar =>
              split at h
              · exact absurd h (by simp)
              · next key c₂x hid =>
                split at h
                · exact absurd h (by simp)
                · next body c₃ l₃ hb =>
                  split at h
                  · cases h
                    simpa [identsSatisfy] using ihBody _ _ _ _ _ hb
                  · exact absurd h (by simp)
            · next hpar =>
              split at h
              · exact absurd h (by simp)
              · next rest c₂x hid =>
                cases h
                have hrest := parseIdent_chars input f (current + 1) rest _ hid
                have hcw : isWsChar c = false := by
                  simp only [Bool.or_eq_true, decide_eq_true_eq] at hws
                  push_neg at hws
                  obtain ⟨⟨w1, w2⟩, w3⟩ := hws
                  simp [isWsChar, w1, w2, w3, hnl]
                show identsSatisfy noWsNoParenTail
                  (ConfigValue.ident (String.mk (c :: rest))) = true
                have htl : (String.mk (c :: rest)).toList = c :: rest := rfl
                simp only [identsSatisfy, noWsNoParenTail, htl, List.drop_one,
                  List.all_cons, List.tail_cons, Bool.and_eq_true,
                  List.all_eq_true]
                refine ⟨⟨by simp [hcw], ?_⟩, ?_⟩
                · intro x hx
                  simp [(not_terminating_char x (hrest x hx)).1]
                · intro x hx
                  exact (not_terminating_char x (hrest x hx)).2
    · intro current line vs c₂ l₂ h
      unfold parseBody at h
      split at h
      · cases h
        simp [identsSatisfyList]
      · split at h
        · cases h
          simp [identsSatisfyList]
        · split at h
          · exact absurd h (by simp)
          · next v c₂x l₂x h1 =>
            split at h
            · exact absurd h (by simp)
            · next vs2 c₃ l₃ h2 =>
              have hv := ihOne _ _ _ _ _ h1
              have hvs := ihBody _ _ _ _ _ h2
              cases v with
              | none =>
                cases h
                exact hvs
              | ident s =>
                cases h
                simp [identsSatisfyList, hv, hvs]
              | array a =>
                cases h
                simp [identsSatisfyList, hv, hvs]
              | pair a b =>
                cases h
                simp [identsSatisfyList, hv, hvs]

/-- The top-level parse loop inherits the identifier invariant. -/
lemma parseMany_invariant (input : List Char) :
    ∀ fuel current line vs c₂ l₂,
      parseMany input fuel current line = .ok (vs, c₂, l₂) →
      identsSatisfyList noWsNoParenTail vs = true := by
  intro fuel
  induction fuel with
  | zero =>
    intro current line vs c₂ l₂ h
    simp [parseMany] at h
  | succ f ih =>
    intro current line vs c₂ l₂ h
    unfold parseMany at h
    split at h
    · cases h
      simp [identsSatisfyList]
    · split at h
      · exact absurd h (by simp)
      · next v c₂x l₂x h1 =>
        split at h
        · exact absurd h (by simp)
        · next vs2 c₃ l₃ h2 =>
          have hv := (parse_invariant input f).1 _ _ _ _ _ h1
          have hvs := ih _ _ _ _ _ h2
          cases v with
          | none =>
            cases h
            exact hvs
          | ident s =>
            cases h
            simp [identsSatisfyList, hv, hvs]
          | array a =>
            cases h
            simp [identsSatisfyList, hv, hvs]
          | pair a b =>
            cases h
            simp [identsSatisfyList, hv, hvs]

/-- C9 counterexample: the input `")"` parses successfully to the
single identifier `")"`, which contains a `)` character — so the claim
that no identifier in a parsed tree contains `)` is false. -/
theorem c9_counterexample :
    parseString ")" = .ok [ConfigValue.ident ")"] ∧
    identsSatisfyList noWsNoParen [ConfigValue.ident ")"] = false := by
  constructor
  · rfl
  · simp [identsSatisfyList, identsSatisfy, noWsNoParen, isWsChar]

/-- C9 (amended): for every input on which parse succeeds, no
`Identifier` node of the returned tree contains a whitespace character,
and a `)` occurs in an `Identifier` at most as its first character
(which happens only for a top-level form starting with `)`). -/
theorem c9_ident_characters (s : String) (vs : List ConfigValue)
    (h : parseString s = .ok vs) :
    identsSatisfyList noWsNoParenTail vs = true := by
  unfold parseString at h
  split at h
  · exact absurd h (by simp)
  · next vs2 c l hm =>
    cases h
    exact parseMany_invariant s.toList _ _ _ _ _ _ hm

/-- C9 witness: the amended theorem at the input `"(jsp a b)"`. -/
theorem c9_ident_characters_witness :
    parseString "(jsp a b)" =
      .ok [ConfigValue.pair "jsp" (.array [.ident "a", .ident "b"])] ∧
    identsSatisfyList noWsNoParenTail
      [ConfigValue.pair "jsp" (.array [.ident "a", .ident "b"])] = true :=
  ⟨rfl, c9_ident_characters "(jsp a b)" _ rfl⟩
